import Mathlib

/-
Verification of the baud-rate detector (`baudrate.py`).

Shallow embedding conventions:
* A byte read from the serial transport or a keystroke is modelled as a
  `Char` (the character it stands for); byte/character classification in
  the source compares against lists of one-character strings.
* Machine state touched by the two loops (ladder index, toggle pair,
  display buffer, interpreter mode, escape deadline) is passed explicitly.
* Wall-clock times are in milliseconds as `Nat`; the sentinel `0` means
  "unset", mirroring the source's use of `0` as the unarmed value.
* Python truthiness of an optional integer argument (`index if index else
  self.index`) is modelled explicitly: `none` and `some 0` are both falsy.
-/

/-- The fixed ordered list of candidate baud rates, descending
(`Baudrate.BAUDRATES`). -/
def BAUDRATES : List String :=
  ["921600", "576000", "460800", "230400", "115200", "76800", "57600",
   "38400", "28800", "19200", "9600", "4800", "2400", "1800", "1200",
   "600", "300", "200", "150", "134", "110", "75", "50"]

/-- `Baudrate.DEFAULT_BAUDRATE`. -/
def DEFAULT_BAUDRATE : String := "115200"

/-- `Baudrate.WHITESPACE`. -/
def WHITESPACE : List Char := [' ', '\t', '\r', '\n']

/-- `Baudrate.PUNCTUATION`. -/
def PUNCTUATION : List Char := ['.', ',', ':', ';', '?', '!']

/-- `Baudrate.VOWELS`. -/
def VOWELS : List Char :=
  ['a', 'A', 'e', 'E', 'i', 'I', 'o', 'O', 'u', 'U']

/-- The printable ASCII range `' '..'~'` built by the while loop of
`Baudrate._gen_char_list`. -/
def printableRange : List Char := (List.range' 32 95).map Char.ofNat

/-- `Baudrate.valid_characters`: the printable range, then each member of
`WHITESPACE` appended when not already present (`_gen_char_list`). -/
def valid_characters : List Char :=
  WHITESPACE.foldl (fun acc c => if c ∈ acc then acc else acc ++ [c])
    printableRange

/-- The four rolling counters of the detection loop (`count`,
`whitespace`, `punctuation`, `vowels` locals of `Detect`). -/
structure Counters where
  count : Nat
  whitespace : Nat
  punctuation : Nat
  vowels : Nat
deriving DecidableEq, Repr

/-- All four counters zero: their initial value, and the value the
`clear_counters` branch of `Detect` resets them to. -/
def Counters.zero : Counters := ⟨0, 0, 0, 0⟩

/-- One classified valid byte: the `elif` chain of `Detect` bumps at most
one of the three sub-category counters, then `count += 1` runs for every
valid byte. The `byte in ...` membership tests are modelled at character
level, the comparison the classification is written to make; under the
Python 3 runtime the byte is a `bytes` value and the lists hold `str`
elements, so the comparisons are constant false — that semantics is
modelled separately by `classifyIncrementPy3`. -/
def classifyIncrement (ctr : Counters) (c : Char) : Counters :=
  let ctr1 :=
    if c ∈ WHITESPACE then { ctr with whitespace := ctr.whitespace + 1 }
    else if c ∈ PUNCTUATION then
      { ctr with punctuation := ctr.punctuation + 1 }
    else if c ∈ VOWELS then { ctr with vowels := ctr.vowels + 1 }
    else ctr
  { ctr1 with count := ctr1.count + 1 }

/-- Counter values at the success check of `Detect` for the byte just
read: incremented when `self.auto_detect and byte in
self.valid_characters` held, otherwise untouched (the `clear_counters`
reset only runs later in the iteration). The membership guard is
modelled at character level; under the Python 3 runtime the bytes-vs-str
comparison is constant false, which `observeBytePy3` models. -/
def observeByte (auto : Bool) (ctr : Counters) (c : Char) : Counters :=
  if auto = true ∧ c ∈ valid_characters then classifyIncrement ctr c
  else ctr

/-- The success condition of `Detect`:
`count >= self.threshold and whitespace > 0 and punctuation > 0 and
vowels > 0`. -/
def successCond (threshold : Nat) (ctr : Counters) : Bool :=
  decide (ctr.count ≥ threshold) && decide (ctr.whitespace > 0) &&
    decide (ctr.punctuation > 0) && decide (ctr.vowels > 0)

/-- One iteration of the `Detect` loop on a received byte, restricted to
the counter/confirmation logic (timeout handling and echo are modelled
elsewhere): classify, check the success condition (`break` when it
holds), and otherwise apply the pending `clear_counters` reset when the
byte was not counted. Returns the counters as they stand when the next
byte is read, and whether the loop confirmed. -/
def detectStep (auto : Bool) (threshold : Nat) (ctr : Counters)
    (c : Char) : Counters × Bool :=
  let ctr1 := observeByte auto ctr c
  if successCond threshold ctr1 then (ctr1, true)
  else if auto = true ∧ c ∈ valid_characters then (ctr1, false)
  else (Counters.zero, false)

/-- Run the `Detect` counter loop over a whole received byte stream,
stopping at the first confirmation. -/
def detectRun (auto : Bool) (threshold : Nat) (ctr : Counters) :
    List Char → Counters × Bool
  | [] => (ctr, false)
  | c :: cs =>
    match detectStep auto threshold ctr c with
    | (ctr1, true) => (ctr1, true)
    | (ctr1, false) => detectRun auto threshold ctr1 cs

/-- `Detect` starts `HandleKeypress` on a separate thread exactly when
the guard `if not self.auto_detect:` holds (`Detect`, the thread-start
block). -/
def detectSpawnsKeypressThread (auto_detect : Bool) : Bool :=
  !auto_detect

/-- The candidate ladder's mutable state: `self.index` and
`self.toggle_bauds`. -/
structure Ladder where
  index : Nat
  toggle_bauds : Nat × Nat
deriving DecidableEq, Repr

/-- `Baudrate.set_baud_from_index` restricted to its state effect on
`self.index`: the argument defaults to `None`, and the assignment
`self.index = index if index else self.index` tests Python truthiness,
so both `None` and `0` leave the index unchanged. -/
def set_baud_from_index (l : Ladder) (i : Option Nat) : Ladder :=
  { l with index :=
      match i with
      | some j => if j ≠ 0 then j else l.index
      | none => l.index }

/-- The index computation of `Baudrate.NextBaudrate`:
`self.index -= updn`, then clamp (`>= len(BAUDRATES)` resets to `0`,
negative resets to `len(BAUDRATES) - 1`). -/
def NextBaudrateIndex (index : Nat) (updn : Int) : Nat :=
  if (index : Int) - updn ≥ (BAUDRATES.length : Int) then 0
  else if (index : Int) - updn < 0 then BAUDRATES.length - 1
  else ((index : Int) - updn).toNat

/-- `Baudrate.NextBaudrate` as a ladder-state transformer: clamp the
shifted index, then `set_baud_from_index()` with no argument (which
leaves the index as just computed). -/
def NextBaudrate (l : Ladder) (updn : Int) : Ladder :=
  set_baud_from_index { l with index := NextBaudrateIndex l.index updn }
    none

/-- `Baudrate.toggle_baud`: when the current index differs from the
stored "next" slot, the current index becomes the new "previous" and
`set_baud_from_index(next_index)` is called; the pair is then rewritten
as `(next_index, prev_index)`. -/
def toggle_baud (l : Ladder) : Ladder :=
  let prev := l.toggle_bauds.1
  let next := l.toggle_bauds.2
  if l.index ≠ next then
    { set_baud_from_index l (some next) with
        toggle_bauds := (next, l.index) }
  else
    { l with toggle_bauds := (next, prev) }

/-- The ladder mutations reachable during a session: `NextBaudrate`
(from the detector's timeout rotation or the interpreter's up/down
keys), `set_baud_from_index` with an explicit index (from
`toggle_baud`), and `toggle_baud` (the space key). -/
inductive LadderOp where
  | step : Int → LadderOp
  | set : Nat → LadderOp
  | toggle : LadderOp
deriving DecidableEq, Repr

/-- Apply one ladder operation. -/
def applyOp (l : Ladder) : LadderOp → Ladder
  | .step u => NextBaudrate l u
  | .set i => set_baud_from_index l (some i)
  | .toggle => toggle_baud l

/-- The ladder state built by `Baudrate.__init__`: `self.index` is the
position of `DEFAULT_BAUDRATE` in the list, and `self.toggle_bauds` is
`(i, i)` for the configured toggle rate's position `i`. -/
def initLadder (toggleIdx : Nat) : Ladder :=
  ⟨BAUDRATES.indexOf DEFAULT_BAUDRATE, (toggleIdx, toggleIdx)⟩

/-- All three stored indices of the ladder state are in bounds. -/
def validLadder (l : Ladder) : Prop :=
  l.index < BAUDRATES.length ∧ l.toggle_bauds.1 < BAUDRATES.length ∧
    l.toggle_bauds.2 < BAUDRATES.length

/-- `Baudrate.max_display_chars`. -/
def max_display_chars : Nat := 80

/-- `Baudrate.newline_sub`: a carriage return, a full line of blanks,
and a carriage return. -/
def newline_sub : List Char :=
  '\r' :: (List.replicate max_display_chars ' ' ++ ['\r'])

/-- Python `str.strip` whitespace. -/
def pyIsSpace (c : Char) : Bool :=
  c ∈ [' ', '\t', '\n', '\r', '\x0b', '\x0c']

/-- Python `buf.strip()` on a character list. -/
def pyStrip (l : List Char) : List Char :=
  ((l.dropWhile pyIsSpace).reverse.dropWhile pyIsSpace).reverse

/-- `buf[buf.rfind(sep) + 1:]`: the characters after the last
occurrence of `sep` (the whole list when `sep` is absent). -/
def afterLast (sep : Char) (l : List Char) : List Char :=
  (l.reverse.takeWhile (fun c => c ≠ sep)).reverse

/-- The display state of `Baudrate._print` and `cap_stderr`:
`self.buffer` and `self.stderr_needs_capping`. -/
structure Display where
  buffer : List Char
  stderr_needs_capping : Bool
deriving DecidableEq, Repr

/-- The tail of `_print` once the new buffer contents are fixed: run
`cap_stderr` when flagged (two blank lines to stderr), write the buffer
prefixed by a carriage return when reprinting in place, then reset the
buffer when it reached `max_display_chars` or the write was not an
in-place overwrite. Returns the new state and the characters written to
stderr. -/
def displayEmit (d : Display) (newBuf : List Char) (reprinting : Bool) :
    Display × List Char :=
  let d1 :=
    if d.stderr_needs_capping then { d with stderr_needs_capping := false }
    else d
  let capOut : List Char :=
    if d.stderr_needs_capping then ['\n', '\n'] else []
  let pre : List Char := if reprinting then ['\r'] else []
  let out := capOut ++ pre ++ newBuf
  let buf1 :=
    if newBuf.length ≥ max_display_chars ∨ reprinting = false then []
    else newBuf
  ({ d1 with buffer := buf1 }, out)

/-- `Baudrate._print`: `chunk = none` stands for a byte sequence whose
UTF-8 decode raises, which the surrounding `try/except: pass` swallows.
Output only happens when `self.verbose` is set. With newlines allowed
(either the call-site flag or `self.allow_newline`), a chunk holding a
line break is flushed verbatim as a fresh line; otherwise a chunk that
is exactly one newline only stages a line-clear into the buffer and
returns, a chunk with embedded newlines is stripped and cut after its
last newline behind a line-clear, and a newline-free chunk is appended
and reprinted in place. -/
def printStep (verbose allowNewlineCfg : Bool) (d : Display)
    (chunk : Option (List Char)) (allow_newline : Bool) :
    Display × List Char :=
  if verbose = true then
    match chunk with
    | none => (d, [])
    | some buf =>
      if allow_newline = true ∨ allowNewlineCfg = true then
        displayEmit d (d.buffer ++ buf) (decide ('\n' ∉ buf))
      else
        if '\n' ∈ buf then
          if buf = ['\n'] then ({ d with buffer := newline_sub }, [])
          else
            let buf1 := pyStrip buf
            if '\n' ∈ buf1 then
              displayEmit d (newline_sub ++ afterLast '\n' buf1) true
            else displayEmit d buf1 true
        else displayEmit d (d.buffer ++ buf) true
  else (d, [])

/-- `Baudrate.INTERPRET_MODE_KEY` (`CONTROL_B`). -/
def INTERPRET_MODE_KEY : Char := '\x02'

/-- `Baudrate.CONTROL_C`. -/
def CONTROL_C : Char := '\x03'

/-- `Baudrate.ESCAPE_KEY`. -/
def ESCAPE_KEY : Char := '\x1b'

/-- `Baudrate.ESCAPE_CODE_COMING`. -/
def ESCAPE_CODE_COMING : Char := '['

/-- `Baudrate.INTERPRET_ESC_TIMEOUT_MS`. -/
def INTERPRET_ESC_TIMEOUT_MS : Nat := 100

/-- `Baudrate.UPKEYS`. -/
def UPKEYS : List Char := ['u', 'U', 'A']

/-- `Baudrate.DOWNKEYS`. -/
def DOWNKEYS : List Char := ['d', 'D', 'B']

/-- `Baudrate.HELPKEYS`. -/
def HELPKEYS : List Char := ['h', '?']

/-- `Baudrate.RETURN`. -/
def RETURN : List Char := ['\n', '\r']

/-- The interpreter loop's local state in `HandleKeypress`:
`interpret_mode` and `interpret_esc_timeout` (milliseconds, `0` =
unarmed). -/
structure KState where
  interpret_mode : Bool
  esc_deadline : Nat
deriving DecidableEq, Repr

/-- The commands the interpret branch of `HandleKeypress` dispatches to
the shared controller. -/
inductive Cmd where
  | stepUp
  | stepDown
  | help
  | toggle
  | capLine
  | cancel
deriving DecidableEq, Repr

/-- The `if interpret_mode:` dispatch of `HandleKeypress`: the `elif`
chain maps the key to a command; the escape key (pass-through builds
only) instead arms the disambiguation deadline, drops back to
pass-through and `continue`s; every other path then clears
`interpret_mode` when pass-through is configured. -/
def interpretKey (pk : Bool) (c : Char) (now : Nat) :
    KState × List Cmd :=
  if c ∈ UPKEYS then (⟨!pk, 0⟩, [Cmd.stepUp])
  else if c ∈ DOWNKEYS then (⟨!pk, 0⟩, [Cmd.stepDown])
  else if c ∈ HELPKEYS then (⟨!pk, 0⟩, [Cmd.help])
  else if c = ' ' then (⟨!pk, 0⟩, [Cmd.toggle])
  else if c ∈ RETURN then (⟨!pk, 0⟩, [Cmd.capLine])
  else if c = CONTROL_C then (⟨!pk, 0⟩, [Cmd.cancel])
  else if c = ESCAPE_KEY ∧ pk = true then
    (⟨false, now + INTERPRET_ESC_TIMEOUT_MS⟩, [])
  else (⟨!pk, 0⟩, [])

/-- One iteration of the `HandleKeypress` loop body on keystroke `c`
read at wall-clock time `now` (milliseconds). Returns the new local
state, the bytes written to the serial transport, and the commands
dispatched. With the escape deadline armed, a sequence-continuation
marker before the deadline switches to interpret mode and is consumed;
otherwise the deadline is cleared and the key is handled normally: in
pass-through mode the mode-switch key is consumed and switches to
interpret mode while any other key is written verbatim to the
transport, and in interpret mode the key is dispatched as a command. -/
def stepKeypress (pk : Bool) (s : KState) (c : Char) (now : Nat) :
    KState × List Char × List Cmd :=
  if s.esc_deadline ≠ 0 ∧ now < s.esc_deadline ∧ c = ESCAPE_CODE_COMING
  then (⟨true, 0⟩, [], [])
  else
    if pk = true ∧ s.interpret_mode = false then
      if c = INTERPRET_MODE_KEY then (⟨true, 0⟩, [], [])
      else (⟨false, 0⟩, [c], [])
    else if s.interpret_mode = true then
      let r := interpretKey pk c now
      (r.1, [], r.2)
    else (⟨s.interpret_mode, 0⟩, [], [])

/-- A Python 3 value relevant to the classification comparisons of
`Detect`: a one-byte `bytes` object (as `self.serial.read(1)` returns)
or a one-character `str` (the elements of `valid_characters`,
`WHITESPACE`, `PUNCTUATION` and `VOWELS`). -/
inductive PyVal where
  | pyBytes : Char → PyVal
  | pyStr : Char → PyVal
deriving DecidableEq, Repr

/-- Python 3 equality between such values: a `bytes` value never equals
a `str` value, whatever their contents. -/
def pyEq : PyVal → PyVal → Bool
  | .pyBytes a, .pyBytes b => a == b
  | .pyStr a, .pyStr b => a == b
  | _, _ => false

/-- Python 3 list membership `v in l`, elementwise by `pyEq`. -/
def pyMem (v : PyVal) (l : List PyVal) : Bool := l.any (pyEq v)

/-- `classifyIncrement` under the Python 3 runtime semantics of lines
216-221: the byte read from the transport is a `bytes` value while the
class lists hold `str` elements, so every membership test compares
across the two types. -/
def classifyIncrementPy3 (ctr : Counters) (c : Char) : Counters :=
  let ctr1 :=
    if pyMem (PyVal.pyBytes c) (WHITESPACE.map PyVal.pyStr) = true then
      { ctr with whitespace := ctr.whitespace + 1 }
    else if pyMem (PyVal.pyBytes c) (PUNCTUATION.map PyVal.pyStr) = true
    then { ctr with punctuation := ctr.punctuation + 1 }
    else if pyMem (PyVal.pyBytes c) (VOWELS.map PyVal.pyStr) = true then
      { ctr with vowels := ctr.vowels + 1 }
    else ctr
  { ctr1 with count := ctr1.count + 1 }

/-- `observeByte` under the Python 3 runtime semantics of line 215: the
guard is `byte in self.valid_characters` with `byte : bytes` and the
list elements `str`. -/
def observeBytePy3 (auto : Bool) (ctr : Counters) (c : Char) :
    Counters :=
  if auto = true ∧
      pyMem (PyVal.pyBytes c) (valid_characters.map PyVal.pyStr) = true
  then classifyIncrementPy3 ctr c
  else ctr

/-- `detectStep` under the Python 3 runtime semantics of the membership
guards. -/
def detectStepPy3 (auto : Bool) (threshold : Nat) (ctr : Counters)
    (c : Char) : Counters × Bool :=
  let ctr1 := observeBytePy3 auto ctr c
  if successCond threshold ctr1 then (ctr1, true)
  else if auto = true ∧
      pyMem (PyVal.pyBytes c) (valid_characters.map PyVal.pyStr) = true
  then (ctr1, false)
  else (Counters.zero, false)

theorem classifyIncrement_no_ws (ctr : Counters) (c : Char)
    (hc : c ∉ WHITESPACE) :
    (classifyIncrement ctr c).whitespace = ctr.whitespace := by
  unfold classifyIncrement
  by_cases h2 : c ∈ PUNCTUATION
  · simp [hc, h2]
  · by_cases h3 : c ∈ VOWELS
    · simp [hc, h2, h3]
    · simp [hc, h2, h3]

theorem detectStep_ws_zero (auto : Bool) (th : Nat) (ctr : Counters)
    (c : Char) (h0 : ctr.whitespace = 0) (hc : c ∉ WHITESPACE) :
    (detectStep auto th ctr c).2 = false ∧
      (detectStep auto th ctr c).1.whitespace = 0 := by
  have hobs : (observeByte auto ctr c).whitespace = 0 := by
    unfold observeByte
    split
    · rw [classifyIncrement_no_ws ctr c hc]; exact h0
    · exact h0
  have hs : successCond th (observeByte auto ctr c) = false := by
    unfold successCond
    rw [hobs]
    simp
  unfold detectStep
  dsimp only
  rw [hs]
  simp only [Bool.false_eq_true, if_false]
  split
  · exact ⟨rfl, hobs⟩
  · exact ⟨rfl, rfl⟩

theorem detectRun_no_ws (auto : Bool) (th : Nat) :
    ∀ (l : List Char) (ctr : Counters), ctr.whitespace = 0 →
      (∀ c ∈ l, c ∉ WHITESPACE) →
      (detectRun auto th ctr l).2 = false := by
  intro l
  induction l with
  | nil => intro ctr _ _; rfl
  | cons c cs ih =>
    intro ctr h0 hl
    have hw := detectStep_ws_zero auto th ctr c h0
      (hl c (List.mem_cons_self c cs))
    rcases hd : detectStep auto th ctr c with ⟨ctr1, b⟩
    rw [hd] at hw
    obtain ⟨hb, h1⟩ := hw
    simp only at hb h1
    subst hb
    show (detectRun auto th ctr (c :: cs)).2 = false
    unfold detectRun
    rw [hd]
    exact ih ctr1 h1 (fun x hx => hl x (List.mem_cons_of_mem c hx))

/-- C2: in automatic mode the detector confirms after a byte exactly
when `total_count >= threshold` and all three of the whitespace,
punctuation and vowel counters are simultaneously positive at the
check; consequently a stream that repeats one printable character that
is neither a vowel nor punctuation nor whitespace never reaches the
success condition, whatever its length. -/
theorem detect_success_condition :
    (∀ (th : Nat) (ctr : Counters) (c : Char),
      (detectStep true th ctr c).2 = true ↔
        ((observeByte true ctr c).count ≥ th ∧
         (observeByte true ctr c).whitespace > 0 ∧
         (observeByte true ctr c).punctuation > 0 ∧
         (observeByte true ctr c).vowels > 0)) ∧
    (∀ (th n : Nat) (c : Char), c ∈ printableRange → c ∉ VOWELS →
      c ∉ PUNCTUATION → c ∉ WHITESPACE →
      (detectRun true th Counters.zero (List.replicate n c)).2 = false) := by
  constructor
  · intro th ctr c
    have key : (detectStep true th ctr c).2 =
        successCond th (observeByte true ctr c) := by
      unfold detectStep
      dsimp only
      by_cases hs : successCond th (observeByte true ctr c) = true
      · rw [hs]; simp
      · rw [Bool.not_eq_true] at hs
        rw [hs]
        simp only [Bool.false_eq_true, if_false]
        split
        · rfl
        · rfl
    rw [key]
    unfold successCond
    simp only [Bool.and_eq_true, decide_eq_true_iff, ge_iff_le, gt_iff_lt]
    tauto
  · intro th n c _ _ _ hws
    exact detectRun_no_ws true th (List.replicate n c) Counters.zero rfl
      (fun x hx => (List.eq_of_mem_replicate hx) ▸ hws)

theorem detect_success_condition_witness :
    ((detectStep true 25 Counters.zero 'x').2 = true ↔
      ((observeByte true Counters.zero 'x').count ≥ 25 ∧
       (observeByte true Counters.zero 'x').whitespace > 0 ∧
       (observeByte true Counters.zero 'x').punctuation > 0 ∧
       (observeByte true Counters.zero 'x').vowels > 0)) ∧
    (detectRun true 25 Counters.zero (List.replicate 40 'x')).2 = false :=
  ⟨detect_success_condition.1 25 Counters.zero 'x',
   detect_success_condition.2 25 40 'x' (by decide) (by decide)
     (by decide) (by decide)⟩

theorem pyMem_bytes_str (c : Char) (l : List Char) :
    pyMem (PyVal.pyBytes c) (l.map PyVal.pyStr) = false := by
  induction l with
  | nil => rfl
  | cons x xs ih =>
    show (pyEq (PyVal.pyBytes c) (PyVal.pyStr x) ||
        pyMem (PyVal.pyBytes c) (xs.map PyVal.pyStr)) = false
    rw [ih]
    rfl

/-- C3 (code bug): under the Python 3 runtime, the guard of line 215
compares the `bytes` value read from the transport with `str` list
elements and is therefore false for every byte, so even `'a'` — a
member of the intended valid-character set — never increments
`total_count`; the iteration zeroes all four counters instead (the loop
not confirming on the stale counters). The claim's member-increment
half is the program's documented intent but does not hold of the
code. -/
theorem detect_py3_guard_constant_false :
    'a' ∈ valid_characters ∧
    (∀ c : Char,
      pyMem (PyVal.pyBytes c) (valid_characters.map PyVal.pyStr) =
        false) ∧
    detectStepPy3 true 25 (Counters.mk 3 1 0 1) 'a' =
      (Counters.zero, false) ∧
    (detectStepPy3 true 25 (Counters.mk 3 1 0 1) 'a').1.count ≠
      (Counters.mk 3 1 0 1).count + 1 :=
  ⟨by decide, fun c => pyMem_bytes_str c valid_characters, by decide,
   by decide⟩

/-- C1 counterexample: with automatic detection requested
(`auto_detect = true`), `Detect` does not start the keypress
interpreter thread, contradicting the claim that it does. -/
theorem detect_thread_counterexample :
    ¬ (detectSpawnsKeypressThread true = true) := by decide

/-- C1 (amended): `Detect` starts `HandleKeypress` on a separate thread
exactly when automatic detection is NOT requested; in automatic mode no
concurrent interpreter thread is started. -/
theorem detect_thread_spawn_iff_manual :
    ∀ auto_detect : Bool,
      detectSpawnsKeypressThread auto_detect = !auto_detect := by
  intro a
  rfl

/-- C4 counterexample: from index `0` (which is in bounds) with delta
`-30`, `NextBaudrate` clamps to `0` while `(0 - (-30)) mod 23 = 7`, so
the claimed modular law fails for general integer deltas. -/
theorem NextBaudrate_mod_counterexample :
    0 < BAUDRATES.length ∧
    NextBaudrateIndex 0 (-30) ≠
      ((((0 : Nat) : Int) - (-30)) % (BAUDRATES.length : Int)).toNat := by
  decide

/-- C4 (amended): for every starting index in bounds and every delta in
`{-1, 0, 1}` (the only deltas the program passes), `NextBaudrate` sets
the index to `(index - delta) mod len(BAUDRATES)`. -/
theorem NextBaudrate_mod_small_delta :
    ∀ (index : Nat) (updn : Int), index < BAUDRATES.length →
      (updn = -1 ∨ updn = 0 ∨ updn = 1) →
      NextBaudrateIndex index updn =
        (((index : Int) - updn) % (BAUDRATES.length : Int)).toNat := by
  intro index updn hidx hu
  have hlen : BAUDRATES.length = 23 := rfl
  rw [hlen] at hidx ⊢
  unfold NextBaudrateIndex
  rw [hlen]
  rcases hu with rfl | rfl | rfl <;> split <;>
    first
      | omega
      | (split <;> omega)

theorem NextBaudrate_mod_small_delta_witness :
    NextBaudrateIndex 0 1 =
      ((((0 : Nat) : Int) - 1) % (BAUDRATES.length : Int)).toNat :=
  NextBaudrate_mod_small_delta 0 1 (by decide) (Or.inr (Or.inr rfl))

/-- C5 counterexample: the ladder state with current index `4` and
toggle pair `(0, 4)` satisfies the claim's hypothesis (the index equals
one slot of the established pair, and the pair holds two distinct
values), yet a toggle call does not change the selected index at all —
`set_baud_from_index(0)` is a no-op — so the index does not alternate
between two values. -/
theorem toggle_alternation_counterexample :
    ((Ladder.mk 4 (0, 4)).index = (Ladder.mk 4 (0, 4)).toggle_bauds.1 ∨
      (Ladder.mk 4 (0, 4)).index = (Ladder.mk 4 (0, 4)).toggle_bauds.2) ∧
    (Ladder.mk 4 (0, 4)).toggle_bauds.1 ≠
      (Ladder.mk 4 (0, 4)).toggle_bauds.2 ∧
    ¬ ((toggle_baud (toggle_baud (Ladder.mk 4 (0, 4)))).index =
          (Ladder.mk 4 (0, 4)).index ∧
        (toggle_baud (Ladder.mk 4 (0, 4))).index ≠
          (Ladder.mk 4 (0, 4)).index) := by
  decide

/-- C5 (amended): starting from a stable state whose current index
equals the pair's most-recent slot, with the two slots distinct and
neither slot equal to `0` (index `0` defeats `set_baud_from_index`'s
truthiness test), toggling twice returns the index to its starting
value and each toggle call alternates the index between the two slots. -/
theorem toggle_twice_identity :
    ∀ l : Ladder, l.index = l.toggle_bauds.1 →
      l.toggle_bauds.1 ≠ l.toggle_bauds.2 →
      l.toggle_bauds.1 ≠ 0 → l.toggle_bauds.2 ≠ 0 →
      (toggle_baud (toggle_baud l)).index = l.index ∧
      (toggle_baud l).index = l.toggle_bauds.2 ∧
      (toggle_baud l).index ≠ l.index := by
  rintro ⟨x, a, b⟩ h hab ha hb
  dsimp only at h hab ha hb
  subst h
  have t1 : toggle_baud (Ladder.mk x (x, b)) = Ladder.mk b (b, x) := by
    unfold toggle_baud set_baud_from_index
    dsimp only
    rw [if_pos hab, if_pos hb]
  have t2 : toggle_baud (Ladder.mk b (b, x)) = Ladder.mk x (x, b) := by
    unfold toggle_baud set_baud_from_index
    dsimp only
    rw [if_pos (Ne.symm hab), if_pos ha]
  rw [t1, t2]
  exact ⟨rfl, rfl, Ne.symm hab⟩

theorem toggle_twice_identity_witness :
    (toggle_baud (toggle_baud (Ladder.mk 4 (4, 10)))).index =
        (Ladder.mk 4 (4, 10)).index ∧
      (toggle_baud (Ladder.mk 4 (4, 10))).index =
        (Ladder.mk 4 (4, 10)).toggle_bauds.2 ∧
      (toggle_baud (Ladder.mk 4 (4, 10))).index ≠
        (Ladder.mk 4 (4, 10)).index :=
  toggle_twice_identity (Ladder.mk 4 (4, 10)) rfl (by decide) (by decide)
    (by decide)

theorem NextBaudrateIndex_lt (index : Nat) (updn : Int) :
    NextBaudrateIndex index updn < BAUDRATES.length := by
  have hlen : BAUDRATES.length = 23 := rfl
  unfold NextBaudrateIndex
  rw [hlen]
  split
  · omega
  · split <;> omega

theorem applyOp_preserves_valid (l : Ladder) (op : LadderOp)
    (hl : validLadder l)
    (hop : ∀ i, op = LadderOp.set i → i < BAUDRATES.length) :
    validLadder (applyOp l op) := by
  obtain ⟨hi, hp1, hp2⟩ := hl
  cases op with
  | step u =>
    exact ⟨NextBaudrateIndex_lt l.index u, hp1, hp2⟩
  | set i =>
    refine ⟨?_, hp1, hp2⟩
    show (set_baud_from_index l (some i)).index < BAUDRATES.length
    unfold set_baud_from_index
    dsimp only
    split
    · exact hop i rfl
    · exact hi
  | toggle =>
    unfold applyOp toggle_baud set_baud_from_index
    dsimp only
    split
    · refine ⟨?_, hp2, hi⟩
      split
      · exact hp2
      · exact hi
    · exact ⟨hi, hp2, hp1⟩

theorem foldl_applyOp_valid (ops : List LadderOp) :
    ∀ l : Ladder, validLadder l →
      (∀ i, LadderOp.set i ∈ ops → i < BAUDRATES.length) →
      validLadder (ops.foldl applyOp l) := by
  induction ops with
  | nil => intro l hl _; exact hl
  | cons op rest ih =>
    intro l hl hset
    exact ih (applyOp l op)
      (applyOp_preserves_valid l op hl
        (fun i hi => hset i (hi ▸ List.mem_cons_self op rest)))
      (fun i hi => hset i (List.mem_cons_of_mem op hi))

/-- C6: from the initial state built by `__init__` (with a valid
configured toggle index), any sequence of `NextBaudrate` steps with any
deltas, `set_baud_from_index` calls with valid indices, and
`toggle_baud` calls keeps the ladder index inside
`[0, len(BAUDRATES))`, so the rate `Detect` returns is an element of
the candidate list. -/
theorem ladder_index_always_in_bounds :
    ∀ (ops : List LadderOp) (toggleIdx : Nat),
      toggleIdx < BAUDRATES.length →
      (∀ i, LadderOp.set i ∈ ops → i < BAUDRATES.length) →
      (ops.foldl applyOp (initLadder toggleIdx)).index <
          BAUDRATES.length ∧
        BAUDRATES.getD (ops.foldl applyOp (initLadder toggleIdx)).index
            "" ∈ BAUDRATES := by
  intro ops toggleIdx ht hset
  have hinit : validLadder (initLadder toggleIdx) := by
    refine ⟨?_, ht, ht⟩
    show BAUDRATES.indexOf DEFAULT_BAUDRATE < BAUDRATES.length
    decide
  have hvalid := foldl_applyOp_valid ops (initLadder toggleIdx) hinit hset
  refine ⟨hvalid.1, ?_⟩
  rw [List.getD_eq_getElem?_getD, List.getElem?_eq_getElem hvalid.1]
  exact List.getElem_mem hvalid.1

theorem ladder_index_always_in_bounds_witness :
    ([LadderOp.step 1, LadderOp.toggle, LadderOp.set 3,
        LadderOp.step (-5)].foldl applyOp (initLadder 0)).index <
        BAUDRATES.length ∧
      BAUDRATES.getD
          ([LadderOp.step 1, LadderOp.toggle, LadderOp.set 3,
              LadderOp.step (-5)].foldl applyOp (initLadder 0)).index ""
          ∈ BAUDRATES :=
  ladder_index_always_in_bounds
    [LadderOp.step 1, LadderOp.toggle, LadderOp.set 3, LadderOp.step (-5)]
    0 (by decide)
    (by
      intro i hi
      simp at hi
      subst hi
      decide)

/-- C7: with newlines disallowed and the display active, feeding the
single chunk consisting of one newline stages exactly the line-clear
sequence (a carriage return, a full line of blanks, a carriage return —
no visible text) in the pending buffer and writes nothing; feeding the
chunk `"a\nb"` writes a line-clear followed by exactly the text
`"b"`. -/
theorem display_newline_clear :
    printStep true false ⟨[], false⟩ (some ['\n']) false =
        (⟨newline_sub, false⟩, []) ∧
      newline_sub.all (fun c => c == '\r' || c == ' ') = true ∧
      printStep true false ⟨[], false⟩ (some ['a', '\n', 'b']) false =
        (⟨[], false⟩, '\r' :: (newline_sub ++ ['b'])) := by
  refine ⟨by decide, by decide, by decide⟩

/-- C8: in pass-through mode with the escape deadline armed, the
sequence-continuation marker arriving before the deadline switches the
interpreter to interpret mode and writes nothing to the transport; any
other key, or an already-elapsed deadline, clears the deadline and the
keystroke is handled exactly as in undisturbed pass-through mode — in
particular a non-mode-switch key is forwarded verbatim. -/
theorem escape_disambiguation :
    ∀ (t now : Nat) (c : Char), t ≠ 0 →
      ((now < t → c = ESCAPE_CODE_COMING →
        stepKeypress true ⟨false, t⟩ c now = (⟨true, 0⟩, [], [])) ∧
       ((t ≤ now ∨ c ≠ ESCAPE_CODE_COMING) →
        stepKeypress true ⟨false, t⟩ c now =
            stepKeypress true ⟨false, 0⟩ c now ∧
          (c ≠ INTERPRET_MODE_KEY →
            (stepKeypress true ⟨false, t⟩ c now).2.1 = [c]))) := by
  intro t now c ht
  constructor
  · intro hlt hc
    unfold stepKeypress
    rw [if_pos ⟨ht, hlt, hc⟩]
  · intro hother
    have hcond : ¬ ((⟨false, t⟩ : KState).esc_deadline ≠ 0 ∧
        now < (⟨false, t⟩ : KState).esc_deadline ∧
        c = ESCAPE_CODE_COMING) := by
      rcases hother with h | h
      · rintro ⟨_, hlt, _⟩
        dsimp only at hlt
        omega
      · rintro ⟨_, _, hc⟩
        exact h hc
    constructor
    · unfold stepKeypress
      rw [if_neg hcond,
        if_neg (show ¬ ((⟨false, 0⟩ : KState).esc_deadline ≠ 0 ∧
            now < (⟨false, 0⟩ : KState).esc_deadline ∧
            c = ESCAPE_CODE_COMING) by rintro ⟨h0, _, _⟩; exact h0 rfl)]
    · intro hck
      unfold stepKeypress
      rw [if_neg hcond]
      rw [if_pos ⟨rfl, rfl⟩]
      rw [if_neg hck]

theorem escape_disambiguation_witness :
    stepKeypress true ⟨false, 500⟩ '[' 100 = (⟨true, 0⟩, [], []) ∧
      (stepKeypress true ⟨false, 500⟩ 'q' 100 =
          stepKeypress true ⟨false, 0⟩ 'q' 100 ∧
        (stepKeypress true ⟨false, 500⟩ 'q' 100).2.1 = ['q']) :=
  ⟨(escape_disambiguation 500 100 '[' (by decide)).1 (by decide) rfl,
   ((escape_disambiguation 500 100 'q' (by decide)).2
       (Or.inr (by decide))).1,
   ((escape_disambiguation 500 100 'q' (by decide)).2
       (Or.inr (by decide))).2 (by decide)⟩

/-- C9: the display append never propagates a failure: a chunk that
does not decode as UTF-8 text (modelled as `none`, the path the
source's bare `except: pass` swallows) is dropped with the pending
buffer and the capping flag unchanged and nothing written. -/
theorem print_never_raises :
    ∀ (verbose allowNewlineCfg : Bool) (d : Display)
      (allow_newline : Bool),
      printStep verbose allowNewlineCfg d none allow_newline =
        (d, []) := by
  intro v cfg d an
  cases v <;> rfl

/-- C10: `set_baud_from_index 0` leaves the ladder index unchanged
because the argument is tested for Python truthiness rather than
compared with `None` — and index `0` selects the highest candidate
rate `"921600"` — while every nonzero argument does update the
index. -/
theorem set_baud_from_index_zero_noop :
    ∀ l : Ladder,
      (set_baud_from_index l (some 0)).index = l.index ∧
      (∀ i : Nat, i ≠ 0 → (set_baud_from_index l (some i)).index = i) ∧
      BAUDRATES.getD 0 "" = "921600" := by
  intro l
  refine ⟨rfl, ?_, rfl⟩
  intro i hi
  unfold set_baud_from_index
  dsimp only
  rw [if_pos hi]

theorem set_baud_from_index_zero_noop_witness :
    (set_baud_from_index (Ladder.mk 4 (4, 4)) (some 0)).index =
        (Ladder.mk 4 (4, 4)).index ∧
      (set_baud_from_index (Ladder.mk 4 (4, 4)) (some 3)).index = 3 :=
  ⟨(set_baud_from_index_zero_noop (Ladder.mk 4 (4, 4))).1,
   (set_baud_from_index_zero_noop (Ladder.mk 4 (4, 4))).2.1 3
     (by decide)⟩
